import Mathlib

/-!
Verification of the task lifecycle coordinator in `server.ts` of the
runninghub-auto-run repository.  The definitions below are a shallow
embedding of the server-side coordinator: the `createWorkflow` socket
handler, the waiting-queue driver `trySubmitWaitingTask`, the
reconciliation routine `getClientTasks`, the `taskCompleted` and
`deleteTask` handlers, and the SQLite-backed task store (modelled as a
pure list of rows).  Upstream HTTP calls are modelled by an explicit
outcome parameter (a response or a thrown exception); `crypto.randomUUID`
is modelled by explicit fresh-identifier parameters; the current time is
an explicit parameter.
-/

namespace RunninghubAutoRun

/-- One element of a `nodeInfoList`: a (nodeId, fieldName, fieldValue)
triple forwarded to the upstream API. -/
structure NodeInfo where
  nodeId : String
  fieldName : String
  fieldValue : String
deriving DecidableEq, Repr

/-- One row of the SQLite `tasks` table (columns as created by
`server.ts`).  `TEXT` columns that may be `NULL` are `Option String`;
`nodeInfoList` is stored as JSON text, modelled here structurally. -/
structure TaskRecord where
  taskId : Option String
  clientId : String
  status : String
  result : Option String
  createdAt : String
  completedAt : Option String
  error : Option String
  nodeInfoList : Option (List NodeInfo)
  socketId : Option String
  uniqueId : Option String
deriving DecidableEq, Repr

/-- The `WorkflowTask` interface of `server.ts`: an in-memory waiting
queue entry.  `retryCount` and `clientId` are optional there; a missing
`nodeInfoList` value at runtime is modelled by `Option`. -/
structure WorkflowTask where
  socketId : String
  apiKey : String
  workflowId : String
  nodeInfoList : Option (List NodeInfo)
  createdAt : String
  uniqueId : String
  retryCount : Option Nat
  clientId : Option String
deriving DecidableEq, Repr

/-- The `Task` objects built by `getClientTasks` and sent back to the
client in the `clientTasks` event. -/
structure ClientTask where
  taskId : Option String
  clientId : String
  status : String
  createdAt : String
  uniqueId : String
  result : Option String
  completedAt : Option String
  error : Option String
  nodeInfoList : Option (List NodeInfo)
deriving DecidableEq, Repr

/-- The `data` payload of a successful upstream create response. -/
structure UpData where
  taskId : String
  taskStatus : String
deriving DecidableEq, Repr

/-- An upstream create response `{code, msg, data?}`. -/
structure UpResponse where
  code : Int
  msg : String
  data : Option UpData
deriving DecidableEq, Repr

/-- Outcome of one `axios.post` to the upstream create endpoint: either a
response body or a thrown (network/timeout) exception. -/
inductive UpOutcome
  | resp (r : UpResponse)
  | exn
deriving DecidableEq, Repr

/-- Socket.io events emitted by the coordinator. -/
inductive Event
  | workflowError (error : String)
  | workflowCreated (taskId : Option String) (clientId : String) (status : String)
      (createdAt : String) (uniqueId : String) (nodeInfoList : Option (List NodeInfo))
  | workflowStatusUpdate (originalCreatedAt : String) (taskId : Option String)
      (status : String) (createdAt : String) (uniqueId : Option String)
      (error : Option String) (clientId : Option String) (recovered : Bool)
  | taskRecoveryUpdate (clientId : String) (createdAt : String) (uniqueId : String)
      (status : String) (message : String)
  | taskDeleted (uniqueId : Option String) (taskId : Option String) (success : Bool)
      (error : Option String)
  | clientTasks (clientId : String) (tasks : List ClientTask) (error : Option String)
deriving DecidableEq, Repr

/-- The mutable server-side state of `server.ts`: the two in-memory
queues, the in-flight counter and the persisted task store. -/
structure ServerState where
  pendingTasks : List WorkflowTask
  waitingTasks : List WorkflowTask
  processingTaskCount : Int
  db : List TaskRecord
deriving DecidableEq, Repr

/-- JavaScript string falsiness: the empty string is falsy. -/
def falsyStr (s : String) : Bool := s = ""

/-- JavaScript falsiness for a possibly-absent string value
(`undefined`/`null` or the empty string). -/
def falsyOpt : Option String → Bool
  | none => true
  | some s => s = ""

/-- `MAX_RETRY_ATTEMPTS` constant of `server.ts`. -/
def MAX_RETRY_ATTEMPTS : Nat := 5

/-- `INITIAL_RETRY_DELAY` constant of `server.ts` (milliseconds). -/
def INITIAL_RETRY_DELAY : Nat := 1000

/-- `getRetryDelay`: `Math.min(INITIAL_RETRY_DELAY * 2 ** retryCount, 30000)`. -/
def getRetryDelay (retryCount : Nat) : Nat :=
  min (INITIAL_RETRY_DELAY * 2 ^ retryCount) 30000

/-- Error message emitted when a creation request lacks a clientId. -/
def missingClientIdMsg : String := "缺少客户端标识(runninghub-client-id)，请刷新页面重试"

/-- Error message emitted by the `createWorkflow` catch branch. -/
def createErrorMsg : String := "创建工作流时出错"

/-- Fixed error string written to a task record when retries are exhausted. -/
def failedTaskMsg : String := "任务创建失败，请稍后重试"

/-- Error string sent when a deletion finds no matching waiting entry. -/
def notFoundMsg : String := "未找到任务"

/-- Message broadcast in `taskRecoveryUpdate` events. -/
def recoveryMsg : String := "任务已重新加入处理队列"

/-- The `value || null` coercion applied to the INSERT parameters of
`saveTaskToDb`: a missing or falsy (empty) string is stored as SQL
NULL. -/
def orNull : Option String → Option String
  | none => none
  | some s => if s = "" then none else some s

/-- `saveTaskToDb` of `server.ts`: refuses a task without a `clientId`,
generates a `uniqueId` when missing and appends one row; the INSERT
binds `task.taskId || null`, `task.completedAt || null`,
`task.error || null` and `task.socketId || null` (and a falsy `result`
as NULL), so falsy values are stored as SQL NULL. -/
def saveTaskToDb (freshId : String) (t : TaskRecord) (db : List TaskRecord) :
    List TaskRecord :=
  if falsyStr t.clientId then db
  else
    let uid := if falsyOpt t.uniqueId then freshId else t.uniqueId.getD ""
    db ++ [{ t with taskId := orNull t.taskId,
                    result := orNull t.result,
                    completedAt := orNull t.completedAt,
                    error := orNull t.error,
                    socketId := orNull t.socketId,
                    uniqueId := some uid }]

/-- A `createWorkflow` request body (`{apiKey, workflowId, nodeInfoList,
_timestamp, clientId}`). -/
structure CreateReq where
  apiKey : String
  workflowId : String
  nodeInfoList : Option (List NodeInfo)
  timestamp : Option String
  clientId : Option String
deriving DecidableEq, Repr

/-- `_timestamp || new Date().toISOString()`. -/
def tsOrNow (req : CreateReq) (now : String) : String :=
  match req.timestamp with
  | none => now
  | some t => if falsyStr t then now else t

/-- The task record inserted by the `createWorkflow` handler: only
`taskId`, `clientId`, `status`, `createdAt`, `uniqueId` and
`nodeInfoList` are supplied; the remaining columns are `NULL`. -/
def mkRecord (taskId : Option String) (clientId status createdAt uniqueId : String)
    (nodeInfoList : Option (List NodeInfo)) : TaskRecord :=
  { taskId := taskId, clientId := clientId, status := status, result := none,
    createdAt := createdAt, completedAt := none, error := none,
    nodeInfoList := nodeInfoList, socketId := none, uniqueId := some uniqueId }

/-- Result of one `createWorkflow` handler invocation: the new server
state, the events emitted to the requesting socket, and whether a
delayed queue-driver kick (`setTimeout(trySubmitWaitingTask, 1000)`)
was scheduled. -/
structure CreateResult where
  state : ServerState
  events : List Event
  kickScheduled : Bool
deriving Repr

/-- The `createWorkflow` socket handler of `server.ts`.  `freshUuid` is
the value returned by `generateUUID()`, `now` the current ISO time,
`socketId` the id of the requesting socket, `up` the outcome of the
upstream call. -/
def createWorkflow (freshUuid now socketId : String) (req : CreateReq)
    (up : UpOutcome) (st : ServerState) : CreateResult :=
  if falsyOpt req.clientId then
    ⟨st, [Event.workflowError missingClientIdMsg], false⟩
  else
    let clientId := req.clientId.getD ""
    let uniqueId := freshUuid
    match up with
    | UpOutcome.exn => ⟨st, [Event.workflowError createErrorMsg], false⟩
    | UpOutcome.resp r =>
      let createdAt := tsOrNow req now
      if r.code = 421 ∧ r.msg = "TASK_QUEUE_MAXED" then
        let task : WorkflowTask :=
          { socketId := socketId, apiKey := req.apiKey, workflowId := req.workflowId,
            nodeInfoList := req.nodeInfoList, createdAt := createdAt,
            uniqueId := uniqueId, retryCount := none, clientId := req.clientId }
        let rec1 := mkRecord none clientId "WAITING" createdAt uniqueId req.nodeInfoList
        ⟨{ st with waitingTasks := st.waitingTasks ++ [task],
                   db := saveTaskToDb freshUuid rec1 st.db },
         [Event.workflowCreated none clientId "WAITING" createdAt uniqueId req.nodeInfoList],
         st.processingTaskCount == 0⟩
      else if r.code ≠ 200 ∧ r.code ≠ 0 then
        let task : WorkflowTask :=
          { socketId := socketId, apiKey := req.apiKey, workflowId := req.workflowId,
            nodeInfoList := req.nodeInfoList, createdAt := createdAt,
            uniqueId := uniqueId, retryCount := none, clientId := req.clientId }
        let rec1 := mkRecord none clientId "RETRY" createdAt uniqueId req.nodeInfoList
        ⟨{ st with waitingTasks := st.waitingTasks ++ [task],
                   db := saveTaskToDb freshUuid rec1 st.db },
         [Event.workflowCreated none clientId "RETRY" createdAt uniqueId req.nodeInfoList],
         false⟩
      else
        match r.data with
        | some d =>
          let rec1 := mkRecord (some d.taskId) clientId d.taskStatus createdAt uniqueId
            req.nodeInfoList
          ⟨{ st with db := saveTaskToDb freshUuid rec1 st.db },
           [Event.workflowCreated (some d.taskId) clientId d.taskStatus createdAt uniqueId
             req.nodeInfoList],
           false⟩
        | none =>
          let rec1 := mkRecord none clientId "SUCCESS" createdAt uniqueId req.nodeInfoList
          ⟨{ st with db := saveTaskToDb freshUuid rec1 st.db },
           [Event.workflowCreated none clientId "SUCCESS" createdAt uniqueId
             req.nodeInfoList],
           false⟩

/-- The head normalisation performed at the top of
`trySubmitWaitingTask`: initialise `retryCount` to 0 when undefined and
generate a `uniqueId` when absent.  The head object is mutated in place,
so the queue keeps the normalised entry in every branch. -/
def normalizeTask (freshId : String) (t : WorkflowTask) : WorkflowTask :=
  { t with retryCount := some (t.retryCount.getD 0),
           uniqueId := if falsyStr t.uniqueId then freshId else t.uniqueId }

/-- `UPDATE tasks SET taskId = ?, status = ? WHERE uniqueId = ?`. -/
def updateByUniqueId (uid taskId status : String) (db : List TaskRecord) :
    List TaskRecord :=
  db.map fun r =>
    if r.uniqueId = some uid then { r with taskId := some taskId, status := status }
    else r

/-- `UPDATE tasks SET status = 'FAILED', error = ?, completedAt = ?
WHERE createdAt = ? AND clientId = ?`. -/
def markFailed (createdAt clientId now : String) (db : List TaskRecord) :
    List TaskRecord :=
  db.map fun r =>
    if r.createdAt = createdAt ∧ r.clientId = clientId then
      { r with status := "FAILED", error := some failedTaskMsg, completedAt := some now }
    else r

/-- Result of one `trySubmitWaitingTask` invocation: the new state, the
events emitted, the delay of a `setTimeout(trySubmitWaitingTask, delay)`
scheduled by the failure branch (if any), and the entry whose submission
was attempted (always the queue head). -/
structure DriverResult where
  state : ServerState
  events : List Event
  sched : Option Nat
  attempted : Option WorkflowTask
deriving Repr

/-- One invocation of `trySubmitWaitingTask` of `server.ts`.  `freshId`
is the value a `generateUUID()` call would return, `now` the current
time, `liveSockets` the ids of currently connected sockets, `up` the
outcome of the upstream create call made for the head entry. -/
def trySubmitWaitingTask (freshId now : String) (liveSockets : List String)
    (up : UpOutcome) (st : ServerState) : DriverResult :=
  match st.waitingTasks with
  | [] => ⟨st, [], none, none⟩
  | hd :: t =>
    let task := normalizeTask freshId hd
    let rc := task.retryCount.getD 0
    let live := ¬ falsyStr task.socketId ∧ task.socketId ∈ liveSockets
    let failBranch : DriverResult :=
      let rc' := rc + 1
      if rc' ≤ MAX_RETRY_ATTEMPTS then
        ⟨{ st with waitingTasks := { task with retryCount := some rc' } :: t },
         [], some (getRetryDelay rc'), some task⟩
      else
        let st1 := { st with waitingTasks := t }
        if falsyOpt task.clientId then ⟨st1, [], none, some task⟩
        else
          let cid := task.clientId.getD ""
          let ev :=
            if live then
              [Event.workflowStatusUpdate task.createdAt none "FAILED" task.createdAt
                none (some failedTaskMsg) none false]
            else []
          ⟨{ st1 with db := markFailed task.createdAt cid now st1.db }, ev, none, some task⟩
    match up with
    | UpOutcome.exn => failBranch
    | UpOutcome.resp r =>
      if r.code = 421 ∧ r.msg = "TASK_QUEUE_MAXED" then
        ⟨{ st with waitingTasks := task :: t }, [], none, some task⟩
      else if r.code = 200 ∨ r.code = 0 then
        let st1 := { st with waitingTasks := t }
        match r.data with
        | none => ⟨st1, [], none, some task⟩
        | some d =>
          if falsyOpt task.clientId then ⟨st1, [], none, some task⟩
          else
            let cid := task.clientId.getD ""
            let db' := updateByUniqueId task.uniqueId d.taskId d.taskStatus st1.db
            let upd :=
              if live then
                Event.workflowStatusUpdate task.createdAt (some d.taskId) d.taskStatus
                  task.createdAt (some task.uniqueId) none none false
              else
                Event.workflowStatusUpdate task.createdAt (some d.taskId) d.taskStatus
                  task.createdAt (some task.uniqueId) none (some cid) true
            ⟨{ st1 with db := db',
                        processingTaskCount := st1.processingTaskCount + 1 },
             [upd], none, some task⟩
      else failBranch

/-- `UPDATE tasks SET status = 'SUCCESS', completedAt = ?, result = ?
WHERE taskId = ?` (the `taskCompleted` handler). -/
def completeByTaskId (taskId now : String) (result : Option String)
    (db : List TaskRecord) : List TaskRecord :=
  db.map fun r =>
    if r.taskId = some taskId then
      { r with status := "SUCCESS", completedAt := some now, result := result }
    else r

/-- The `taskCompleted` socket handler: update the record by upstream
taskId, decrement the in-flight counter clamping at zero, and when the
waiting queue is non-empty immediately invoke `trySubmitWaitingTask`
(whose upstream outcome is the `driverUp` parameter). -/
def taskCompleted (now : String) (taskId : Option String) (result : Option String)
    (driverFresh driverNow : String) (liveSockets : List String) (driverUp : UpOutcome)
    (st : ServerState) : ServerState :=
  let db' :=
    if falsyOpt taskId then st.db
    else completeByTaskId (taskId.getD "") now result st.db
  let c := st.processingTaskCount - 1
  let c' := if c < 0 then 0 else c
  let st1 := { st with db := db', processingTaskCount := c' }
  if st1.waitingTasks.isEmpty then st1
  else (trySubmitWaitingTask driverFresh driverNow liveSockets driverUp st1).state

/-- A `deleteTask` request body. -/
structure DeleteReq where
  uniqueId : Option String
  taskId : Option String
  createdAt : Option String
  isWaiting : Bool
deriving DecidableEq, Repr

/-- Waiting-queue index located by the `deleteTask` handler: search by
`uniqueId` first and fall back to `createdAt`. -/
def waitingIdx (req : DeleteReq) (wts : List WorkflowTask) : Option Nat :=
  let idx0 : Option Nat :=
    if falsyOpt req.uniqueId then none
    else wts.findIdx? fun task => task.uniqueId == req.uniqueId.getD ""
  match idx0 with
  | some i => some i
  | none =>
    if falsyOpt req.createdAt then none
    else wts.findIdx? fun task => task.createdAt == req.createdAt.getD ""

/-- The `deleteTask` socket handler: delete the persisted record (keyed
by `uniqueId`, else `taskId`, else `createdAt`), then, for waiting
tasks, remove the matching queue entry and report success or a non-fatal
not-found failure. -/
def deleteTaskHandler (req : DeleteReq) (st : ServerState) :
    ServerState × List Event :=
  let db' :=
    if ¬ falsyOpt req.uniqueId then
      st.db.filter fun r => r.uniqueId ≠ some (req.uniqueId.getD "")
    else if ¬ falsyOpt req.taskId then
      st.db.filter fun r => r.taskId ≠ some (req.taskId.getD "")
    else if ¬ falsyOpt req.createdAt then
      st.db.filter fun r => r.createdAt ≠ req.createdAt.getD ""
    else st.db
  if req.isWaiting then
    match waitingIdx req st.waitingTasks with
    | some i =>
      ({ st with db := db', waitingTasks := st.waitingTasks.eraseIdx i },
       [Event.taskDeleted req.uniqueId none true none])
    | none =>
      ({ st with db := db' },
       [Event.taskDeleted req.uniqueId none false (some notFoundMsg)])
  else if ¬ falsyOpt req.taskId then
    ({ st with db := db' }, [Event.taskDeleted req.uniqueId req.taskId true none])
  else
    ({ st with db := db' }, [])

/-- Row-to-task mapping done by `getClientTasks`: objects returned to the
client get a freshly generated `uniqueId` when the stored one is
missing. -/
def recordToTask (freshId : String) (r : TaskRecord) : ClientTask :=
  { taskId := r.taskId, clientId := r.clientId, status := r.status,
    createdAt := r.createdAt,
    uniqueId := if falsyOpt r.uniqueId then freshId else r.uniqueId.getD "",
    result := r.result, completedAt := r.completedAt, error := r.error,
    nodeInfoList := r.nodeInfoList }

/-- `SELECT ... FROM tasks WHERE clientId = ? ORDER BY createdAt DESC`. -/
def queryClientTasks (clientId : String) (db : List TaskRecord) : List TaskRecord :=
  (db.filter fun r => r.clientId = clientId).insertionSort
    fun a b => b.createdAt ≤ a.createdAt

/-- `apiKey`/`workflowId` extraction in `getClientTasks`: first look at
the head node / a `workflowId` node of the in-memory list; when either
is still empty, rescan the stored `nodeInfoList` of the database row,
later nodes overriding earlier ones. -/
def extractKeys (l : List NodeInfo) (dbList : Option (List NodeInfo)) :
    String × String :=
  let apiKey0 :=
    match l.head? with
    | some n => if n.fieldName = "apiKey" then n.fieldValue else ""
    | none => ""
  let workflowId0 :=
    match l.find? (fun n => n.fieldName == "workflowId") with
    | some n => n.fieldValue
    | none => ""
  if apiKey0 = "" ∨ workflowId0 = "" then
    match dbList with
    | none => (apiKey0, workflowId0)
    | some l2 =>
      l2.foldl
        (fun p n =>
          if n.fieldName = "apiKey" then (n.fieldValue, p.2)
          else if n.fieldName = "workflowId" then (p.1, n.fieldValue)
          else p)
        (apiKey0, workflowId0)
  else (apiKey0, workflowId0)

/-- The waiting-queue entry synthesized by the re-enrollment loop of
`getClientTasks` for a recovered task (socketId cannot be recovered,
retryCount starts unset). -/
def reenrollEntry (keys : String × String) (task : ClientTask) : WorkflowTask :=
  { socketId := "", apiKey := keys.1, workflowId := keys.2,
    nodeInfoList := task.nodeInfoList, createdAt := task.createdAt,
    uniqueId := task.uniqueId, retryCount := none,
    clientId := some task.clientId }

/-- One step of the re-enrollment loop of `getClientTasks`: as the loop
walks the client's task list it may append a synthesized waiting-queue
entry and broadcast a `taskRecoveryUpdate`.  The accumulator carries the
waiting queue and the events broadcast so far. -/
def reenrollStep (db : List TaskRecord) (pendingTasks : List WorkflowTask)
    (procCount : Int) (anyConnected : Bool)
    (acc : List WorkflowTask × List Event) (task : ClientTask) :
    List WorkflowTask × List Event :=
  if (task.status = "WAITING" ∨ task.status = "QUEUED") ∧ task.nodeInfoList ≠ none then
    match db.find? (fun r => r.uniqueId == some task.uniqueId) with
    | none => acc
    | some taskDetails =>
      if acc.1.any (fun t => t.uniqueId == task.uniqueId) then acc
      else
        let keys := extractKeys (task.nodeInfoList.getD []) taskDetails.nodeInfoList
        if keys.1 ≠ "" ∧ keys.2 ≠ "" ∧ task.nodeInfoList ≠ none then
          if acc.1.any (fun t => t.uniqueId == task.uniqueId)
              ∨ pendingTasks.any (fun t => t.uniqueId == task.uniqueId) then acc
          else
            let wts' := acc.1 ++ [reenrollEntry keys task]
            let evs' :=
              if 0 < wts'.length ∧ procCount < 3
                  ∧ falsyStr (reenrollEntry keys task).socketId ∧ anyConnected then
                acc.2 ++ [Event.taskRecoveryUpdate task.clientId task.createdAt
                  task.uniqueId "WAITING" recoveryMsg]
              else acc.2
            (wts', evs')
        else acc
  else acc

/-- The `getClientTasks` function of `server.ts` (the reconciliation
service): read the client's rows, build the task objects, re-enroll
still-pending tasks into the waiting queue, and return the new state,
the task list and the broadcast events.  `fresh i` is the value of the
`generateUUID()` call made for the i-th row (if any). -/
def getClientTasksFn (fresh : Nat → String) (anyConnected : Bool) (clientId : String)
    (st : ServerState) : ServerState × List ClientTask × List Event :=
  let records := queryClientTasks clientId st.db
  let tasks := records.enum.map fun p => recordToTask (fresh p.1) p.2
  let folded := tasks.foldl
    (reenrollStep st.db st.pendingTasks st.processingTaskCount anyConnected)
    (st.waitingTasks, [])
  ({ st with waitingTasks := folded.1 }, tasks, folded.2)

/-- Error message for a `getClientTasks` request without a clientId. -/
def missingClientIdParamMsg : String := "缺少clientId参数"

/-- The `getClientTasks` socket handler wrapping `getClientTasksFn` with
the missing-clientId guard and the final `clientTasks` emission. -/
def getClientTasksHandler (fresh : Nat → String) (anyConnected : Bool)
    (clientId : Option String) (st : ServerState) : ServerState × List Event :=
  if falsyOpt clientId then
    (st, [Event.clientTasks "unknown" [] (some missingClientIdParamMsg)])
  else
    let cid := clientId.getD ""
    let res := getClientTasksFn fresh anyConnected cid st
    (res.1, res.2.2 ++ [Event.clientTasks cid res.2.1 none])

/-- One externally triggered coordinator operation, with all of its
environment inputs (fresh UUIDs, clock values, upstream outcomes,
connected sockets). -/
inductive Op
  | create (freshUuid now socketId : String) (req : CreateReq) (up : UpOutcome)
  | driver (freshId now : String) (liveSockets : List String) (up : UpOutcome)
  | completed (now : String) (taskId : Option String) (result : Option String)
      (driverFresh driverNow : String) (liveSockets : List String) (driverUp : UpOutcome)
  | deleteOp (req : DeleteReq)
  | reconcileOp (fresh : Nat → String) (anyConnected : Bool) (clientId : Option String)

/-- State transition of one operation (events discarded). -/
def applyOp (st : ServerState) : Op → ServerState
  | Op.create f n s r u => (createWorkflow f n s r u st).state
  | Op.driver f n l u => (trySubmitWaitingTask f n l u st).state
  | Op.completed n t r df dn ls du => taskCompleted n t r df dn ls du st
  | Op.deleteOp r => (deleteTaskHandler r st).1
  | Op.reconcileOp f a c => (getClientTasksHandler f a c st).1

/-- The server's start state: empty queues, zero in-flight counter,
empty task table. -/
def initState : ServerState := ⟨[], [], 0, []⟩

/-- Run a sequence of operations. -/
def applyOps (ops : List Op) (st : ServerState) : ServerState :=
  ops.foldl applyOp st

/-- A sample nodeInfoList carrying the apiKey and workflowId nodes. -/
def sampleNodes : List NodeInfo :=
  [⟨"1", "apiKey", "K"⟩, ⟨"2", "workflowId", "W"⟩]

/-- A sample well-formed creation request. -/
def sampleReq : CreateReq := ⟨"K", "W", some sampleNodes, some "t0", some "c"⟩

/-- A sample upstream success payload. -/
def okData : UpData := ⟨"T1", "QUEUED"⟩

/-- A sample upstream success response. -/
def okResp : UpResponse := ⟨0, "", some okData⟩

/-- The upstream capacity-rejection response. -/
def capReject : UpResponse := ⟨421, "TASK_QUEUE_MAXED", none⟩

/-- A sample upstream business-error response. -/
def bizErr : UpResponse := ⟨500, "ERR", none⟩

/-- A WAITING record with extractable apiKey/workflowId nodes. -/
def waitRec : TaskRecord :=
  ⟨none, "c", "WAITING", none, "t1", none, none, some sampleNodes, none, some "uW"⟩

/-- A RETRY record with extractable apiKey/workflowId nodes. -/
def retryRec : TaskRecord :=
  ⟨none, "c", "RETRY", none, "t0", none, none, some sampleNodes, none, some "uR"⟩

/-- The waiting-queue component of `reenrollStep` (the events it
broadcasts do not feed back into the queue). -/
def reenrollQueue (db : List TaskRecord) (pendingTasks : List WorkflowTask)
    (wts : List WorkflowTask) (task : ClientTask) : List WorkflowTask :=
  if (task.status = "WAITING" ∨ task.status = "QUEUED") ∧ task.nodeInfoList ≠ none then
    match db.find? (fun r => r.uniqueId == some task.uniqueId) with
    | none => wts
    | some taskDetails =>
      if wts.any (fun t => t.uniqueId == task.uniqueId) then wts
      else
        let keys := extractKeys (task.nodeInfoList.getD []) taskDetails.nodeInfoList
        if keys.1 ≠ "" ∧ keys.2 ≠ "" ∧ task.nodeInfoList ≠ none then
          if wts.any (fun t => t.uniqueId == task.uniqueId)
              ∨ pendingTasks.any (fun t => t.uniqueId == task.uniqueId) then
            wts
          else wts ++ [reenrollEntry keys task]
        else wts
  else wts

/-- The conditions under which the re-enrollment loop synthesizes an
entry for a task (queue membership aside): recoverable status, a stored
nodeInfoList, a database row found by uniqueId, extractable keys, and no
pending-queue entry with the same uniqueId. -/
def reenrollCond (db : List TaskRecord) (pendingTasks : List WorkflowTask)
    (task : ClientTask) : Prop :=
  (task.status = "WAITING" ∨ task.status = "QUEUED") ∧ task.nodeInfoList ≠ none ∧
  ∃ td, db.find? (fun r => r.uniqueId == some task.uniqueId) = some td ∧
    (extractKeys (task.nodeInfoList.getD []) td.nodeInfoList).1 ≠ "" ∧
    (extractKeys (task.nodeInfoList.getD []) td.nodeInfoList).2 ≠ "" ∧
    (∀ w ∈ pendingTasks, w.uniqueId ≠ task.uniqueId)

/-- An upstream outcome counts as a driver failure when it is a thrown
exception or a response that is neither the capacity rejection nor a
success code. -/
def failureOutcome (up : UpOutcome) : Prop :=
  up = UpOutcome.exn ∨
    ∃ r, up = UpOutcome.resp r ∧ ¬(r.code = 421 ∧ r.msg = "TASK_QUEUE_MAXED") ∧
      ¬(r.code = 200 ∨ r.code = 0)

/-- The taskId/status relationship claimed for persisted records:
non-null at QUEUED/RUNNING, null at WAITING/RETRY. -/
def taskIdStatusInv (r : TaskRecord) : Prop :=
  ((r.status = "QUEUED" ∨ r.status = "RUNNING") → r.taskId ≠ none) ∧
  ((r.status = "WAITING" ∨ r.status = "RETRY") → r.taskId = none)

/-- The upstream contract on success payloads: a reported sub-state of
QUEUED or RUNNING and a non-empty upstream task identifier. -/
def upStatusOk : UpOutcome → Prop
  | UpOutcome.resp r =>
    match r.data with
    | some d => (d.taskStatus = "QUEUED" ∨ d.taskStatus = "RUNNING") ∧ d.taskId ≠ ""
    | none => True
  | UpOutcome.exn => True

/-- `upStatusOk` for every upstream outcome an operation consumes. -/
def opUpOk : Op → Prop
  | Op.create _ _ _ _ u => upStatusOk u
  | Op.driver _ _ _ u => upStatusOk u
  | Op.completed _ _ _ _ _ _ du => upStatusOk du
  | _ => True

/-- Pairwise-distinct uniqueIds in a queue. -/
def queueNodup (wts : List WorkflowTask) : Prop :=
  List.Pairwise (fun a b => a.uniqueId ≠ b.uniqueId) wts

/-- The uniqueId stored by `saveTaskToDb`. -/
def saveUid (f : String) (t : TaskRecord) : String :=
  if falsyOpt t.uniqueId then f else t.uniqueId.getD ""

/-- Projection used to compare queue entries by uniqueId. -/
def taskUid (w : WorkflowTask) : String := w.uniqueId

/-! ## Helper lemmas -/

theorem falsyOpt_false_getD {o : Option String} (h : falsyOpt o = false) :
    falsyStr (o.getD "") = false := by
  cases o with
  | none => simp [falsyOpt] at h
  | some s => simpa [falsyOpt, falsyStr] using h

theorem saveTaskToDb_eq {f : String} {t : TaskRecord} {db : List TaskRecord}
    (h : falsyStr t.clientId = false) :
    saveTaskToDb f t db
      = db ++ [{ t with taskId := orNull t.taskId,
                        result := orNull t.result,
                        completedAt := orNull t.completedAt,
                        error := orNull t.error,
                        socketId := orNull t.socketId,
                        uniqueId := some (saveUid f t) }] := by
  simp [saveTaskToDb, saveUid, h]

theorem saveTaskToDb_length {f : String} {t : TaskRecord} {db : List TaskRecord}
    (h : falsyStr t.clientId = false) :
    (saveTaskToDb f t db).length = db.length + 1 := by
  simp [saveTaskToDb, h]

/-! ## Claim C1 -/

/-- Claim C1, counterexample: a creation request with a clientId whose
upstream call throws persists no task record, contradicting "exactly one
task record is persisted ... including a thrown network/transport
exception". -/
theorem c1_counterexample :
    ¬ ((createWorkflow "u1" "t1" "s1" sampleReq UpOutcome.exn initState).state.db.length
        = initState.db.length + 1) := by decide

/-- Claim C1 (amended): a `createWorkflow` request without a clientId
changes nothing and emits exactly one `workflowError`; with a clientId,
a thrown upstream exception persists nothing and emits exactly one
`workflowError`; with a clientId and any upstream response, exactly one
record is persisted and exactly one notification is emitted. -/
theorem c1_create_side_effects (freshUuid now socketId : String) (req : CreateReq)
    (up : UpOutcome) (st : ServerState) :
    (falsyOpt req.clientId = true →
      (createWorkflow freshUuid now socketId req up st).state = st ∧
      (createWorkflow freshUuid now socketId req up st).events
        = [Event.workflowError missingClientIdMsg]) ∧
    (falsyOpt req.clientId = false → up = UpOutcome.exn →
      (createWorkflow freshUuid now socketId req up st).state.db = st.db ∧
      (createWorkflow freshUuid now socketId req up st).events
        = [Event.workflowError createErrorMsg]) ∧
    (∀ r, falsyOpt req.clientId = false → up = UpOutcome.resp r →
      (createWorkflow freshUuid now socketId req up st).state.db.length
        = st.db.length + 1 ∧
      (createWorkflow freshUuid now socketId req up st).events.length = 1) := by
  refine ⟨fun hc => ?_, fun hc he => ?_, fun r hc hr => ?_⟩
  · simp [createWorkflow, hc]
  · subst he; simp [createWorkflow, hc]
  · subst hr
    have hcl : falsyStr (req.clientId.getD "") = false := falsyOpt_false_getD hc
    simp only [createWorkflow, hc, Bool.false_eq_true, if_false]
    split
    · exact ⟨saveTaskToDb_length hcl, rfl⟩
    · split
      · exact ⟨saveTaskToDb_length hcl, rfl⟩
      · cases hd : r.data with
        | some d => simp only [hd]; exact ⟨saveTaskToDb_length hcl, rfl⟩
        | none => simp only [hd]; exact ⟨saveTaskToDb_length hcl, rfl⟩

/-- Witness for C1 at a concrete input. -/
theorem c1_create_side_effects_witness :
    (createWorkflow "u1" "t1" "s1" sampleReq (UpOutcome.resp okResp) initState).state.db.length
      = initState.db.length + 1 ∧
    (createWorkflow "u1" "t1" "s1" sampleReq (UpOutcome.resp okResp) initState).events.length
      = 1 :=
  (c1_create_side_effects "u1" "t1" "s1" sampleReq (UpOutcome.resp okResp)
    initState).2.2 okResp (by decide) rfl

/-! ## Claim C2 -/

/-- Claim C2, counterexample: a direct-creation success leaves the
in-flight counter unchanged, contradicting "increments the in-flight
counter (processingTaskCount) by one". -/
theorem c2_counterexample :
    ¬ ((createWorkflow "u1" "t1" "s1" sampleReq (UpOutcome.resp okResp)
          initState).state.processingTaskCount
        = initState.processingTaskCount + 1) := by decide

/-- Claim C2 (amended): a direct-creation success with a data payload
persists exactly one record carrying the upstream taskStatus and the
upstream taskId (stored as NULL when upstream reports the empty string,
per the INSERT's `task.taskId || null` coercion) and emits one
`workflowCreated` with the raw {taskId, uniqueId, status}, but the
in-flight counter is left unchanged (it is only incremented by the queue
driver); the waiting queue is also untouched. -/
theorem c2_direct_success (freshUuid now socketId : String) (req : CreateReq)
    (r : UpResponse) (d : UpData) (st : ServerState)
    (hc : falsyOpt req.clientId = false)
    (hcode : r.code = 200 ∨ r.code = 0)
    (hdata : r.data = some d)
    (hf : falsyStr freshUuid = false) :
    (createWorkflow freshUuid now socketId req (UpOutcome.resp r) st).state.db
      = st.db ++ [mkRecord (orNull (some d.taskId)) (req.clientId.getD "") d.taskStatus
          (tsOrNow req now) freshUuid req.nodeInfoList] ∧
    (createWorkflow freshUuid now socketId req (UpOutcome.resp r) st).events
      = [Event.workflowCreated (some d.taskId) (req.clientId.getD "") d.taskStatus
          (tsOrNow req now) freshUuid req.nodeInfoList] ∧
    (createWorkflow freshUuid now socketId req (UpOutcome.resp r) st).state.processingTaskCount
      = st.processingTaskCount ∧
    (createWorkflow freshUuid now socketId req (UpOutcome.resp r) st).state.waitingTasks
      = st.waitingTasks := by
  have hcl : falsyStr (req.clientId.getD "") = false := falsyOpt_false_getD hc
  have h421 : ¬((r.code = 421 ∧ r.msg = "TASK_QUEUE_MAXED")) := by
    rcases hcode with h | h <;> simp [h]
  have hok : ¬(r.code ≠ 200 ∧ r.code ≠ 0) := by
    rcases hcode with h | h <;> simp [h]
  have hf' : freshUuid ≠ "" := by simpa [falsyStr] using hf
  cases hcid : req.clientId with
  | none => rw [hcid] at hc; simp [falsyOpt] at hc
  | some s =>
    rw [hcid] at hc
    have hs : s ≠ "" := by simpa [falsyOpt] using hc
    simp [createWorkflow, hcid, h421, hok, hdata, saveTaskToDb, saveUid, mkRecord,
      orNull, falsyOpt, falsyStr, hf', hs]

/-- Witness for C2 at a concrete input. -/
theorem c2_direct_success_witness :
    (createWorkflow "u1" "t1" "s1" sampleReq (UpOutcome.resp okResp)
        initState).state.processingTaskCount = initState.processingTaskCount ∧
    (createWorkflow "u1" "t1" "s1" sampleReq (UpOutcome.resp okResp)
        initState).state.db
      = initState.db ++ [mkRecord (orNull (some okData.taskId)) "c" okData.taskStatus
          "t0" "u1" (some sampleNodes)] :=
  have h := c2_direct_success "u1" "t1" "s1" sampleReq okResp okData initState
    (by decide) (Or.inr rfl) rfl (by decide)
  ⟨h.2.2.1, h.1⟩

/-! ## Claim C5 -/

/-- Claim C5, counterexample: the degenerate-success branch (success
code, no data payload) persists a record with status SUCCESS and a null
taskId, contradicting "taskId is non-null whenever status is QUEUED,
RUNNING, or SUCCESS". -/
theorem c5_counterexample :
    ¬ (∀ rec ∈ (createWorkflow "u1" "t1" "s1" sampleReq
          (UpOutcome.resp ⟨0, "", none⟩) initState).state.db,
        rec.status = "SUCCESS" → rec.taskId ≠ none) := by decide

/-! ## Claim C3 -/

theorem normalizeTask_idem (f : String) (x : WorkflowTask) :
    normalizeTask f (normalizeTask f x) = normalizeTask f x := by
  unfold normalizeTask
  cases hx : falsyStr x.uniqueId <;> simp [hx]

theorem capacity_step (f now : String) (live : List String)
    (pend : List WorkflowTask) (c : Int) (db : List TaskRecord)
    (x : WorkflowTask) (t : List WorkflowTask) :
    (trySubmitWaitingTask f now live (UpOutcome.resp capReject)
        ⟨pend, x :: t, c, db⟩).state = ⟨pend, normalizeTask f x :: t, c, db⟩ := by
  simp [trySubmitWaitingTask, capReject]

theorem capacity_iterate_fixed (f now : String) (live : List String)
    (pend : List WorkflowTask) (c : Int) (db : List TaskRecord)
    (y : WorkflowTask) (t : List WorkflowTask)
    (hy : normalizeTask f y = y) (n : ℕ) :
    ((fun s => (trySubmitWaitingTask f now live (UpOutcome.resp capReject) s).state)^[n]
        ⟨pend, y :: t, c, db⟩) = ⟨pend, y :: t, c, db⟩ := by
  induction n with
  | zero => rfl
  | succ k ih =>
    rw [Function.iterate_succ_apply, capacity_step, hy, ih]

theorem capacity_iterate (f now : String) (live : List String)
    (pend : List WorkflowTask) (c : Int) (db : List TaskRecord)
    (x : WorkflowTask) (t : List WorkflowTask) (n : ℕ) (hn : 1 ≤ n) :
    ((fun s => (trySubmitWaitingTask f now live (UpOutcome.resp capReject) s).state)^[n]
        ⟨pend, x :: t, c, db⟩) = ⟨pend, normalizeTask f x :: t, c, db⟩ := by
  cases n with
  | zero => omega
  | succ k =>
    rw [Function.iterate_succ_apply, capacity_step]
    exact capacity_iterate_fixed f now live pend c db _ t (normalizeTask_idem f x) k

/-- Claim C3: any number of consecutive capacity rejections
(code 421, msg TASK_QUEUE_MAXED) leave the head entry in place: after n
such driver attempts the queue is exactly the (head-normalised) original
queue, the head's retryCount equals its original effective value (it is
never incremented, so capacity rejections never advance the entry toward
the MAX_RETRY_ATTEMPTS budget), no retry timer is scheduled, and the
store, counter and pending queue are untouched; a head that already
carries a retryCount and a uniqueId is left exactly unchanged. -/
theorem c3_capacity_rejection_keeps_head (f now : String) (live : List String)
    (pend : List WorkflowTask) (c : Int) (db : List TaskRecord)
    (x : WorkflowTask) (t : List WorkflowTask) (n : ℕ) (hn : 1 ≤ n) :
    ((fun s => (trySubmitWaitingTask f now live (UpOutcome.resp capReject) s).state)^[n]
        ⟨pend, x :: t, c, db⟩) = ⟨pend, normalizeTask f x :: t, c, db⟩ ∧
    (normalizeTask f x).retryCount = some (x.retryCount.getD 0) ∧
    (trySubmitWaitingTask f now live (UpOutcome.resp capReject)
        ⟨pend, x :: t, c, db⟩).sched = none ∧
    (∀ rc, x.retryCount = some rc → falsyStr x.uniqueId = false →
      normalizeTask f x = x) := by
  refine ⟨capacity_iterate f now live pend c db x t n hn, rfl, ?_, ?_⟩
  · simp [trySubmitWaitingTask, capReject]
  · intro rc hrc hu
    simp [normalizeTask, hrc, hu]
    rw [← hrc]

/-- Witness for C3 at a concrete input. -/
theorem c3_capacity_rejection_keeps_head_witness :
    ((fun s => (trySubmitWaitingTask "f" "now" [] (UpOutcome.resp capReject) s).state)^[3]
        ⟨[], [⟨"s1", "K", "W", some [], "t0", "u1", some 0, some "c"⟩], 0, []⟩)
      = ⟨[], [⟨"s1", "K", "W", some [], "t0", "u1", some 0, some "c"⟩], 0, []⟩ := by
  have h := c3_capacity_rejection_keeps_head "f" "now" []
    [] 0 [] ⟨"s1", "K", "W", some [], "t0", "u1", some 0, some "c"⟩ [] 3 (by decide)
  have hx := h.2.2.2 0 rfl (by decide)
  rw [h.1, hx]

/-! ## Claim C8 -/

theorem attempted_eq_head (f now : String) (live : List String) (up : UpOutcome)
    (s : ServerState) :
    (trySubmitWaitingTask f now live up s).attempted
      = s.waitingTasks.head?.map (normalizeTask f) := by
  rcases s with ⟨pend, wts, c, db⟩
  cases wts with
  | nil => rfl
  | cons hd t =>
    cases up with
    | exn =>
      simp only [trySubmitWaitingTask]
      split_ifs <;> simp [List.head?]
    | resp r =>
      simp only [trySubmitWaitingTask]
      split_ifs <;> try (simp [List.head?])
      all_goals (split <;> simp [List.head?])

/-- Claim C8: the driver only ever attempts the queue head, and under
consecutive capacity rejections an earlier entry A stays head forever:
after any number of capacity-rejected driver invocations on a queue
[A, B, ...], the attempted entry of the next invocation still carries
A's uniqueId and never B's. -/
theorem c8_fifo_head_only (f now : String) (live : List String)
    (pend : List WorkflowTask) (c : Int) (db : List TaskRecord)
    (A B : WorkflowTask) (t : List WorkflowTask)
    (hA : falsyStr A.uniqueId = false) (hAB : A.uniqueId ≠ B.uniqueId) :
    (∀ (s : ServerState) (up : UpOutcome),
      (trySubmitWaitingTask f now live up s).attempted
        = s.waitingTasks.head?.map (normalizeTask f)) ∧
    (∀ n, Option.map taskUid
        (((fun s => (trySubmitWaitingTask f now live (UpOutcome.resp capReject) s).state)^[n]
          ⟨pend, A :: B :: t, c, db⟩).waitingTasks.head?) = some A.uniqueId) ∧
    (∀ n,
      Option.map taskUid
        ((trySubmitWaitingTask f now live (UpOutcome.resp capReject)
          ((fun s => (trySubmitWaitingTask f now live (UpOutcome.resp capReject) s).state)^[n]
            ⟨pend, A :: B :: t, c, db⟩)).attempted) = some A.uniqueId ∧
      Option.map taskUid
        ((trySubmitWaitingTask f now live (UpOutcome.resp capReject)
          ((fun s => (trySubmitWaitingTask f now live (UpOutcome.resp capReject) s).state)^[n]
            ⟨pend, A :: B :: t, c, db⟩)).attempted) ≠ some B.uniqueId) := by
  have hnu : (normalizeTask f A).uniqueId = A.uniqueId := by
    simp [normalizeTask, hA]
  have hq : ∀ n, Option.map taskUid
      (((fun s => (trySubmitWaitingTask f now live (UpOutcome.resp capReject) s).state)^[n]
        ⟨pend, A :: B :: t, c, db⟩).waitingTasks.head?) = some A.uniqueId := by
    intro n
    cases n with
    | zero => simp [List.head?, taskUid]
    | succ k =>
      rw [capacity_iterate f now live pend c db A (B :: t) (k + 1) (by omega)]
      simp [List.head?, taskUid, hnu]
  refine ⟨fun s up => attempted_eq_head f now live up s, hq, fun n => ?_⟩
  have ha := attempted_eq_head f now live (UpOutcome.resp capReject)
    ((fun s => (trySubmitWaitingTask f now live (UpOutcome.resp capReject) s).state)^[n]
      ⟨pend, A :: B :: t, c, db⟩)
  cases n with
  | zero =>
    rw [ha]
    constructor
    · simp [List.head?, taskUid, hnu]
    · simp [List.head?, taskUid, hnu]
      exact hAB
  | succ k =>
    rw [capacity_iterate f now live pend c db A (B :: t) (k + 1) (by omega)] at ha ⊢
    rw [ha]
    constructor
    · simp [List.head?, taskUid, normalizeTask_idem, hnu]
    · simp [List.head?, taskUid, normalizeTask_idem, hnu]
      exact hAB

/-- Witness for C8 at a concrete input. -/
theorem c8_fifo_head_only_witness :
    Option.map taskUid
      ((trySubmitWaitingTask "f" "now" [] (UpOutcome.resp capReject)
        ((fun s => (trySubmitWaitingTask "f" "now" [] (UpOutcome.resp capReject) s).state)^[2]
          ⟨[], [⟨"s1", "K", "W", some [], "t0", "uA", some 0, some "c"⟩,
                ⟨"s2", "K", "W", some [], "t1", "uB", some 0, some "c"⟩], 0, []⟩)).attempted)
      = some "uA" :=
  ((c8_fifo_head_only "f" "now" [] [] 0 []
    ⟨"s1", "K", "W", some [], "t0", "uA", some 0, some "c"⟩
    ⟨"s2", "K", "W", some [], "t1", "uB", some 0, some "c"⟩ []
    (by decide) (by decide)).2.2 2).1

/-! ## Claim C4 -/

theorem normalizeTask_retry (f : String) (x : WorkflowTask) (k : ℕ) :
    normalizeTask f { normalizeTask f x with retryCount := some k }
      = { normalizeTask f x with retryCount := some k } := by
  unfold normalizeTask
  cases hx : falsyStr x.uniqueId <;> simp [hx]

theorem getRetryDelay_mono (a b : ℕ) (h : a ≤ b) :
    getRetryDelay a ≤ getRetryDelay b := by
  unfold getRetryDelay
  exact min_le_min
    (Nat.mul_le_mul_left _ (Nat.pow_le_pow_right (by norm_num) h)) le_rfl

theorem getRetryDelay_le (a : ℕ) : getRetryDelay a ≤ 30000 :=
  min_le_right _ _

theorem failure_step_le (f now : String) (live : List String)
    (pend : List WorkflowTask) (c : Int) (db : List TaskRecord)
    (x : WorkflowTask) (t : List WorkflowTask) (up : UpOutcome)
    (hup : failureOutcome up)
    (hle : x.retryCount.getD 0 + 1 ≤ MAX_RETRY_ATTEMPTS) :
    trySubmitWaitingTask f now live up ⟨pend, x :: t, c, db⟩
      = ⟨⟨pend, { normalizeTask f x with
            retryCount := some (x.retryCount.getD 0 + 1) } :: t, c, db⟩,
         [], some (getRetryDelay (x.retryCount.getD 0 + 1)),
         some (normalizeTask f x)⟩ := by
  rcases hup with he | ⟨r, hr, h421, hok⟩
  · subst he
    simp [trySubmitWaitingTask, normalizeTask, hle]
  · subst hr
    simp [trySubmitWaitingTask, normalizeTask, hle, h421, hok]

theorem markFailed_status {ca cid nowv : String} {db : List TaskRecord} :
    ∀ rec ∈ markFailed ca cid nowv db, rec.createdAt = ca → rec.clientId = cid →
      rec.status = "FAILED" ∧ rec.error = some failedTaskMsg := by
  intro rec hrec hca hc
  simp only [markFailed, List.mem_map] at hrec
  obtain ⟨r, hr, heq⟩ := hrec
  by_cases h : r.createdAt = ca ∧ r.clientId = cid
  · rw [if_pos h] at heq
    rw [← heq]
    exact ⟨rfl, rfl⟩
  · rw [if_neg h] at heq
    rw [← heq] at hca hc
    exact absurd ⟨hca, hc⟩ h

theorem failure_step_exhaust (f now : String) (live : List String)
    (pend : List WorkflowTask) (c : Int) (db : List TaskRecord)
    (x : WorkflowTask) (t : List WorkflowTask) (up : UpOutcome)
    (hup : failureOutcome up)
    (hgt : MAX_RETRY_ATTEMPTS < x.retryCount.getD 0 + 1)
    (hcid : falsyOpt x.clientId = false) :
    (trySubmitWaitingTask f now live up ⟨pend, x :: t, c, db⟩).state
      = ⟨pend, t, c, markFailed x.createdAt (x.clientId.getD "") now db⟩ ∧
    (trySubmitWaitingTask f now live up ⟨pend, x :: t, c, db⟩).sched = none := by
  have hgt' : ¬ (x.retryCount.getD 0 + 1 ≤ MAX_RETRY_ATTEMPTS) := by omega
  rcases hup with he | ⟨r, hr, h421, hok⟩
  · subst he
    constructor <;> simp [trySubmitWaitingTask, normalizeTask, hgt', hcid]
  · subst hr
    constructor <;>
      simp [trySubmitWaitingTask, normalizeTask, hgt', hcid, h421, hok]

theorem failure_iterate (f now : String) (live : List String)
    (pend : List WorkflowTask) (c : Int) (db : List TaskRecord)
    (x : WorkflowTask) (t : List WorkflowTask) (up : UpOutcome)
    (hup : failureOutcome up) (hx : x.retryCount = none)
    (k : ℕ) (hk : 1 ≤ k) (hk5 : k ≤ MAX_RETRY_ATTEMPTS) :
    ((fun s => (trySubmitWaitingTask f now live up s).state)^[k]
        ⟨pend, x :: t, c, db⟩)
      = ⟨pend, { normalizeTask f x with retryCount := some k } :: t, c, db⟩ := by
  induction k with
  | zero => omega
  | succ m ih =>
    rw [Function.iterate_succ_apply']
    cases Nat.eq_or_lt_of_le hk with
    | inl h1 =>
      have hm : m = 0 := by omega
      subst hm
      simp only [Function.iterate_zero, id]
      rw [failure_step_le f now live pend c db x t up hup
        (by rw [hx]; simpa using hk5)]
      simp [hx]
    | inr h1 =>
      rw [ih (by omega) (by omega)]
      rw [failure_step_le f now live pend c db _ t up hup
        (by simpa using hk5)]
      rw [normalizeTask_retry]
      exact rfl

/-- Claim C4: on a non-capacity failure (business error code or thrown
exception) the head's retryCount is incremented; while the new count is
at most MAX_RETRY_ATTEMPTS (5) the entry stays at the head and another
attempt is scheduled after exactly min(1000*2^retryCount, 30000) ms —
those delays are non-decreasing in the retry count and bounded by
30000 ms; once the count exceeds 5 (i.e. on the 6th consecutive failed
attempt of a fresh entry) the entry is popped and every persisted record
matching its createdAt and clientId is set to FAILED with the fixed
error string. -/
theorem c4_retry_backoff_and_exhaustion (f now : String) (live : List String)
    (pend : List WorkflowTask) (c : Int) (db : List TaskRecord)
    (x : WorkflowTask) (t : List WorkflowTask) (up : UpOutcome)
    (hup : failureOutcome up) :
    (x.retryCount.getD 0 + 1 ≤ MAX_RETRY_ATTEMPTS →
      (trySubmitWaitingTask f now live up ⟨pend, x :: t, c, db⟩).state.waitingTasks
        = { normalizeTask f x with retryCount := some (x.retryCount.getD 0 + 1) } :: t ∧
      (trySubmitWaitingTask f now live up ⟨pend, x :: t, c, db⟩).sched
        = some (getRetryDelay (x.retryCount.getD 0 + 1)) ∧
      (trySubmitWaitingTask f now live up ⟨pend, x :: t, c, db⟩).state.db = db ∧
      getRetryDelay (x.retryCount.getD 0 + 1)
        = min (1000 * 2 ^ (x.retryCount.getD 0 + 1)) 30000) ∧
    (∀ a b : ℕ, a ≤ b → getRetryDelay a ≤ getRetryDelay b) ∧
    (∀ a : ℕ, getRetryDelay a ≤ 30000) ∧
    (MAX_RETRY_ATTEMPTS < x.retryCount.getD 0 + 1 → falsyOpt x.clientId = false →
      (trySubmitWaitingTask f now live up ⟨pend, x :: t, c, db⟩).state.waitingTasks = t ∧
      (trySubmitWaitingTask f now live up ⟨pend, x :: t, c, db⟩).sched = none ∧
      (∀ rec ∈ (trySubmitWaitingTask f now live up ⟨pend, x :: t, c, db⟩).state.db,
        rec.createdAt = x.createdAt → rec.clientId = x.clientId.getD "" →
          rec.status = "FAILED" ∧ rec.error = some failedTaskMsg)) ∧
    (x.retryCount = none → falsyOpt x.clientId = false →
      (∀ k, k ≤ MAX_RETRY_ATTEMPTS →
        ((fun s => (trySubmitWaitingTask f now live up s).state)^[k]
          ⟨pend, x :: t, c, db⟩).waitingTasks.length = t.length + 1) ∧
      ((fun s => (trySubmitWaitingTask f now live up s).state)^[MAX_RETRY_ATTEMPTS + 1]
          ⟨pend, x :: t, c, db⟩).waitingTasks = t) := by
  refine ⟨fun hle => ?_, getRetryDelay_mono, getRetryDelay_le,
    fun hgt hcid => ?_, fun hx hcid => ⟨fun k hk => ?_, ?_⟩⟩
  · rw [failure_step_le f now live pend c db x t up hup hle]
    exact ⟨rfl, rfl, rfl, rfl⟩
  · obtain ⟨hst, hsched⟩ :=
      failure_step_exhaust f now live pend c db x t up hup hgt hcid
    rw [hst, hsched]
    exact ⟨rfl, rfl, fun rec hrec => markFailed_status rec hrec⟩
  · cases Nat.eq_zero_or_pos k with
    | inl h0 => subst h0; rfl
    | inr hpos =>
      rw [failure_iterate f now live pend c db x t up hup hx k hpos hk]
      rfl
  · rw [Function.iterate_succ_apply',
      failure_iterate f now live pend c db x t up hup hx MAX_RETRY_ATTEMPTS
        (by norm_num [MAX_RETRY_ATTEMPTS]) le_rfl]
    rw [(failure_step_exhaust f now live pend c db
      { normalizeTask f x with retryCount := some MAX_RETRY_ATTEMPTS } t up hup
      (by simp [MAX_RETRY_ATTEMPTS]) hcid).1]

/-- Witness for C4 at a concrete input. -/
theorem c4_retry_backoff_and_exhaustion_witness :
    (trySubmitWaitingTask "f" "now" [] (UpOutcome.resp bizErr)
        ⟨[], [⟨"s1", "K", "W", some [], "t0", "u1", some 0, some "c"⟩], 0, []⟩).sched
      = some (getRetryDelay 1) ∧ getRetryDelay 1 = 2000 := by
  have h := c4_retry_backoff_and_exhaustion "f" "now" [] [] 0 []
    ⟨"s1", "K", "W", some [], "t0", "u1", some 0, some "c"⟩ [] (UpOutcome.resp bizErr)
    (Or.inr ⟨bizErr, rfl, by decide, by decide⟩)
  exact ⟨(h.1 (by decide)).2.1, by decide⟩

/-! ## Claim C9 -/

/-- Claim C9: for a deletion request with isWaiting true and a non-empty
uniqueId, the queue is searched by uniqueId first: a match is removed
from the queue, the persisted record keyed by that uniqueId is deleted,
and `taskDeleted {success:true}` is emitted; when the uniqueId search
fails, a createdAt match is used as fallback (same success effects); and
when neither matches, the queue is unchanged and a non-fatal
`taskDeleted {success:false}` with an error string is emitted. -/
theorem c9_delete_waiting (req : DeleteReq) (st : ServerState) (u : String)
    (hw : req.isWaiting = true) (hu : req.uniqueId = some u) (hne : u ≠ "") :
    (∀ i, st.waitingTasks.findIdx? (fun w => w.uniqueId == u) = some i →
      (deleteTaskHandler req st).1.waitingTasks = st.waitingTasks.eraseIdx i ∧
      (deleteTaskHandler req st).1.db = st.db.filter (fun r => r.uniqueId ≠ some u) ∧
      (deleteTaskHandler req st).2 = [Event.taskDeleted (some u) none true none]) ∧
    (st.waitingTasks.findIdx? (fun w => w.uniqueId == u) = none →
      ∀ ca j, req.createdAt = some ca → ca ≠ "" →
        st.waitingTasks.findIdx? (fun w => w.createdAt == ca) = some j →
        (deleteTaskHandler req st).1.waitingTasks = st.waitingTasks.eraseIdx j ∧
        (deleteTaskHandler req st).1.db = st.db.filter (fun r => r.uniqueId ≠ some u) ∧
        (deleteTaskHandler req st).2 = [Event.taskDeleted (some u) none true none]) ∧
    (waitingIdx req st.waitingTasks = none →
      (deleteTaskHandler req st).1.waitingTasks = st.waitingTasks ∧
      (deleteTaskHandler req st).2
        = [Event.taskDeleted (some u) none false (some notFoundMsg)]) := by
  refine ⟨fun i hi => ?_, fun hn ca j hca hcane hj => ?_, fun hnone => ?_⟩
  · have hidx : waitingIdx req st.waitingTasks = some i := by
      simp [waitingIdx, hu, falsyOpt, hne, hi]
    simp [deleteTaskHandler, hw, hidx, hu, falsyOpt, hne]
  · have hidx : waitingIdx req st.waitingTasks = some j := by
      simp [waitingIdx, hu, falsyOpt, hne, hn, hca, hcane, hj]
    simp [deleteTaskHandler, hw, hidx, hu, falsyOpt, hne]
  · simp [deleteTaskHandler, hw, hnone, hu, falsyOpt, hne]

/-- Witness for C9 at a concrete input. -/
theorem c9_delete_waiting_witness :
    (deleteTaskHandler ⟨some "u1", none, none, true⟩
        ⟨[], [⟨"s1", "K", "W", some [], "t0", "u1", some 0, some "c"⟩], 0,
         [⟨none, "c", "WAITING", none, "t0", none, none, some [], none, some "u1"⟩]⟩).1.waitingTasks
      = [] ∧
    (deleteTaskHandler ⟨some "u1", none, none, true⟩
        ⟨[], [⟨"s1", "K", "W", some [], "t0", "u1", some 0, some "c"⟩], 0,
         [⟨none, "c", "WAITING", none, "t0", none, none, some [], none, some "u1"⟩]⟩).2
      = [Event.taskDeleted (some "u1") none true none] := by
  have h := (c9_delete_waiting ⟨some "u1", none, none, true⟩
    ⟨[], [⟨"s1", "K", "W", some [], "t0", "u1", some 0, some "c"⟩], 0,
     [⟨none, "c", "WAITING", none, "t0", none, none, some [], none, some "u1"⟩]⟩
    "u1" rfl rfl (by decide)).1 0 (by decide)
  exact ⟨h.1, h.2.2⟩

/-! ## Claim C10 -/

theorem createWorkflow_count (f now sock : String) (req : CreateReq)
    (up : UpOutcome) (st : ServerState) :
    (createWorkflow f now sock req up st).state.processingTaskCount
      = st.processingTaskCount := by
  rcases up with r | _
  · simp only [createWorkflow]
    split_ifs <;> try rfl
    cases r.data <;> rfl
  · simp only [createWorkflow]
    split_ifs <;> rfl

theorem driver_count (f now : String) (live : List String) (up : UpOutcome)
    (st : ServerState) :
    (trySubmitWaitingTask f now live up st).state.processingTaskCount
        = st.processingTaskCount ∨
    (trySubmitWaitingTask f now live up st).state.processingTaskCount
        = st.processingTaskCount + 1 := by
  rcases st with ⟨pend, wts, c, db⟩
  cases wts with
  | nil => left; rfl
  | cons hd t =>
    cases up with
    | exn =>
      simp only [trySubmitWaitingTask]
      split_ifs <;> simp
    | resp r =>
      simp only [trySubmitWaitingTask]
      split_ifs <;> try simp
      all_goals (split <;> simp)

theorem deleteTaskHandler_count (req : DeleteReq) (st : ServerState) :
    (deleteTaskHandler req st).1.processingTaskCount = st.processingTaskCount := by
  simp only [deleteTaskHandler]
  split_ifs <;> try rfl
  all_goals (split <;> rfl)

theorem reconcile_count (fresh : Nat → String) (anyC : Bool)
    (clientId : Option String) (st : ServerState) :
    (getClientTasksHandler fresh anyC clientId st).1.processingTaskCount
      = st.processingTaskCount := by
  simp only [getClientTasksHandler]
  split_ifs <;> rfl

theorem applyOp_count_nonneg (st : ServerState) (o : Op)
    (h : 0 ≤ st.processingTaskCount) : 0 ≤ (applyOp st o).processingTaskCount := by
  cases o with
  | create f n s r u => rw [applyOp, createWorkflow_count]; exact h
  | driver f n l u =>
    rcases driver_count f n l u st with hc | hc <;> rw [applyOp, hc] <;> omega
  | completed n t r df dn ls du =>
    rw [applyOp]
    simp only [taskCompleted]
    have key : ∀ st' : ServerState, 0 ≤ st'.processingTaskCount →
        0 ≤ (if st.waitingTasks.isEmpty then st'
             else (trySubmitWaitingTask df dn ls du st').state).processingTaskCount := by
      intro st' h'
      split_ifs
      · exact h'
      · rcases driver_count df dn ls du st' with hc | hc <;> rw [hc] <;> omega
    apply key
    show (0:Int) ≤ if st.processingTaskCount - 1 < 0 then 0 else st.processingTaskCount - 1
    split_ifs <;> omega
  | deleteOp r => rw [applyOp, deleteTaskHandler_count]; exact h
  | reconcileOp f a c => rw [applyOp, reconcile_count]; exact h

theorem applyOps_count_nonneg (ops : List Op) (st : ServerState)
    (h : 0 ≤ st.processingTaskCount) : 0 ≤ (applyOps ops st).processingTaskCount := by
  induction ops generalizing st with
  | nil => exact h
  | cons o rest ih => exact ih (applyOp st o) (applyOp_count_nonneg st o h)

/-- Claim C10: the in-flight counter is never negative: after any
sequence of coordinator operations starting from the initial state,
processingTaskCount is at least 0; moreover a taskCompleted event on an
empty waiting queue sets the counter to the clamped decrement
max(count - 1, 0), and no operation other than a successful driver
submission increases it (create, delete and reconcile leave it
unchanged, a driver attempt changes it by at most +1). -/
theorem c10_counter_nonneg :
    (∀ ops : List Op, 0 ≤ (applyOps ops initState).processingTaskCount) ∧
    (∀ (n : String) (t : Option String) (r : Option String) (df dn : String)
        (ls : List String) (du : UpOutcome) (st : ServerState),
      st.waitingTasks = [] →
      (taskCompleted n t r df dn ls du st).processingTaskCount
        = max (st.processingTaskCount - 1) 0) ∧
    (∀ (f n s : String) (req : CreateReq) (u : UpOutcome) (st : ServerState),
      (createWorkflow f n s req u st).state.processingTaskCount
        = st.processingTaskCount) ∧
    (∀ (f n : String) (l : List String) (u : UpOutcome) (st : ServerState),
      (trySubmitWaitingTask f n l u st).state.processingTaskCount
          = st.processingTaskCount ∨
      (trySubmitWaitingTask f n l u st).state.processingTaskCount
          = st.processingTaskCount + 1) := by
  refine ⟨fun ops => applyOps_count_nonneg ops initState (by norm_num [initState]),
    fun n t r df dn ls du st hq => ?_, createWorkflow_count, driver_count⟩
  unfold taskCompleted
  simp only [hq, List.isEmpty_nil, if_true]
  split_ifs <;> omega

/-- Witness for C10 at a concrete input. -/
theorem c10_counter_nonneg_witness :
    (taskCompleted "n" (some "T1") none "f" "n" [] (UpOutcome.resp capReject)
        ⟨[], [], 0, []⟩).processingTaskCount = max ((0 : Int) - 1) 0 :=
  c10_counter_nonneg.2.1 "n" (some "T1") none "f" "n" [] (UpOutcome.resp capReject)
    ⟨[], [], 0, []⟩ rfl

/-! ## Reconciliation lemmas (claims C6, C7) -/

theorem reenrollStep_fst (db : List TaskRecord) (pend : List WorkflowTask)
    (pc : Int) (a : Bool) (acc : List WorkflowTask × List Event) (t : ClientTask) :
    (reenrollStep db pend pc a acc t).1 = reenrollQueue db pend acc.1 t := by
  simp only [reenrollStep, reenrollQueue]
  split
  · split
    · rfl
    · split
      · rfl
      · split
        · split
          · rfl
          · rfl
        · rfl
  · rfl

theorem reenrollFold_fst (db : List TaskRecord) (pend : List WorkflowTask)
    (pc : Int) (a : Bool) (ts : List ClientTask)
    (acc : List WorkflowTask × List Event) :
    (ts.foldl (reenrollStep db pend pc a) acc).1
      = ts.foldl (reenrollQueue db pend) acc.1 := by
  induction ts generalizing acc with
  | nil => rfl
  | cons t ts ih =>
    rw [List.foldl_cons, List.foldl_cons, ih, reenrollStep_fst]

theorem getClientTasksFn_waiting (fresh : Nat → String) (a : Bool) (cid : String)
    (st : ServerState) :
    (getClientTasksFn fresh a cid st).1.waitingTasks
      = ((queryClientTasks cid st.db).enum.map
          fun p => recordToTask (fresh p.1) p.2).foldl
            (reenrollQueue st.db st.pendingTasks) st.waitingTasks := by
  simp only [getClientTasksFn]
  exact reenrollFold_fst st.db st.pendingTasks st.processingTaskCount a _ _

theorem getClientTasksFn_db (fresh : Nat → String) (a : Bool) (cid : String)
    (st : ServerState) : (getClientTasksFn fresh a cid st).1.db = st.db := rfl

theorem getClientTasksFn_pending (fresh : Nat → String) (a : Bool) (cid : String)
    (st : ServerState) :
    (getClientTasksFn fresh a cid st).1.pendingTasks = st.pendingTasks := rfl

theorem getClientTasksFn_tasks (fresh : Nat → String) (a : Bool) (cid : String)
    (st : ServerState) :
    (getClientTasksFn fresh a cid st).2.1
      = (queryClientTasks cid st.db).enum.map
          fun p => recordToTask (fresh p.1) p.2 := rfl

theorem reenrollQueue_append (db : List TaskRecord) (pend : List WorkflowTask)
    (wts : List WorkflowTask) (task : ClientTask) :
    reenrollQueue db pend wts task = wts ∨
    ∃ keys, (¬ ∃ w ∈ wts, w.uniqueId = task.uniqueId) ∧
      reenrollQueue db pend wts task = wts ++ [reenrollEntry keys task] := by
  simp only [reenrollQueue]
  split
  · split
    · exact Or.inl rfl
    · split
      · exact Or.inl rfl
      · rename_i hany
        split
        · split
          · exact Or.inl rfl
          · rename_i hdup
            refine Or.inr ⟨_, ?_, rfl⟩
            rintro ⟨w, hw, he⟩
            apply hany
            simp only [List.any_eq_true]
            exact ⟨w, hw, by simpa [beq_iff_eq] using he⟩
        · exact Or.inl rfl
  · exact Or.inl rfl

theorem reenrollQueueFold_mem (db : List TaskRecord) (pend : List WorkflowTask)
    (ts : List ClientTask) (wts : List WorkflowTask) (w : WorkflowTask)
    (hw : w ∈ wts) : w ∈ ts.foldl (reenrollQueue db pend) wts := by
  induction ts generalizing wts with
  | nil => exact hw
  | cons t ts ih =>
    rw [List.foldl_cons]
    apply ih
    rcases reenrollQueue_append db pend wts t with h | ⟨k, _, h⟩ <;> rw [h]
    · exact hw
    · exact List.mem_append_left _ hw

theorem reenrollQueue_mem_push (db : List TaskRecord) (pend : List WorkflowTask)
    (wts : List WorkflowTask) (task : ClientTask)
    (hc : reenrollCond db pend task) :
    ∃ w ∈ reenrollQueue db pend wts task, w.uniqueId = task.uniqueId := by
  by_cases hex : ∃ w ∈ wts, w.uniqueId = task.uniqueId
  · obtain ⟨w, hw, he⟩ := hex
    rcases reenrollQueue_append db pend wts task with h | ⟨k, _, h⟩ <;> rw [h]
    · exact ⟨w, hw, he⟩
    · exact ⟨w, List.mem_append_left _ hw, he⟩
  · obtain ⟨hstat, hnode, td, hfind, hk1, hk2, hpend⟩ := hc
    have hany : (wts.any fun t => t.uniqueId == task.uniqueId) = false := by
      rw [List.any_eq_false]
      intro w hw
      simp only [beq_iff_eq]
      exact fun he => hex ⟨w, hw, he⟩
    have hpendany : (pend.any fun t => t.uniqueId == task.uniqueId) = false := by
      rw [List.any_eq_false]
      intro w hw
      simp only [beq_iff_eq]
      exact hpend w hw
    rcases hstat with hs | hs <;>
      simp [reenrollQueue, hfind, hs, hnode, hany, hpendany, hk1, hk2,
        reenrollEntry] <;>
      exact ⟨_, Or.inr rfl, rfl⟩

theorem reenrollQueueFold_cond_mem (db : List TaskRecord)
    (pend : List WorkflowTask) (ts : List ClientTask) (wts : List WorkflowTask)
    (task : ClientTask) (ht : task ∈ ts) (hc : reenrollCond db pend task) :
    ∃ w ∈ ts.foldl (reenrollQueue db pend) wts, w.uniqueId = task.uniqueId := by
  induction ts generalizing wts with
  | nil => cases ht
  | cons t ts ih =>
    rw [List.foldl_cons]
    rcases List.mem_cons.mp ht with he | hm
    · subst he
      obtain ⟨w, hw, he⟩ := reenrollQueue_mem_push db pend wts task hc
      exact ⟨w, reenrollQueueFold_mem db pend ts _ w hw, he⟩
    · exact ih _ hm

/-! ## Claim C6 -/

/-- Claim C6, counterexample: a persisted RETRY record with extractable
apiKey/workflowId nodes and no live queue entry is NOT re-enrolled by
reconciliation (the code only recovers WAITING and QUEUED records),
contradicting the claim's inclusion of RETRY. -/
theorem c6_counterexample :
    (getClientTasksFn (fun _ => "F") true "c" ⟨[], [], 0, [retryRec]⟩).1.waitingTasks
      = [] := by decide

/-- Claim C6 (amended): for every record returned by reconcile(clientId)
whose status is WAITING or QUEUED (not RETRY), which has a nodeInfoList
from which apiKey and workflowId can be extracted (via its database row),
and for which no live waiting- or pending-queue entry with the same
uniqueId exists, reconciliation enqueues a waiting-queue entry carrying
that uniqueId. -/
theorem c6_reconcile_reenrolls (fresh : Nat → String) (anyC : Bool) (cid : String)
    (st : ServerState) (task : ClientTask) (td : TaskRecord)
    (hmem : task ∈ (getClientTasksFn fresh anyC cid st).2.1)
    (hstatus : task.status = "WAITING" ∨ task.status = "QUEUED")
    (hnode : task.nodeInfoList ≠ none)
    (hfind : st.db.find? (fun r => r.uniqueId == some task.uniqueId) = some td)
    (hk1 : (extractKeys (task.nodeInfoList.getD []) td.nodeInfoList).1 ≠ "")
    (hk2 : (extractKeys (task.nodeInfoList.getD []) td.nodeInfoList).2 ≠ "")
    (hpend : ∀ w ∈ st.pendingTasks, w.uniqueId ≠ task.uniqueId)
    (_hwait : ∀ w ∈ st.waitingTasks, w.uniqueId ≠ task.uniqueId) :
    ∃ w ∈ (getClientTasksFn fresh anyC cid st).1.waitingTasks,
      w.uniqueId = task.uniqueId := by
  rw [getClientTasksFn_waiting]
  rw [getClientTasksFn_tasks] at hmem
  exact reenrollQueueFold_cond_mem st.db st.pendingTasks _ st.waitingTasks task hmem
    ⟨hstatus, hnode, td, hfind, hk1, hk2, hpend⟩

/-- Witness for C6 at a concrete input. -/
theorem c6_reconcile_reenrolls_witness :
    ∃ w ∈ (getClientTasksFn (fun _ => "F") true "c"
        ⟨[], [], 0, [waitRec]⟩).1.waitingTasks,
      w.uniqueId = (recordToTask "F" waitRec).uniqueId := by
  apply c6_reconcile_reenrolls (fun _ => "F") true "c" ⟨[], [], 0, [waitRec]⟩
    (recordToTask "F" waitRec) waitRec
  · decide
  · decide
  · decide
  · decide
  · decide
  · decide
  · intro w hw; cases hw
  · intro w hw; cases hw

/-! ## Claim C7 -/

theorem reenrollQueue_nodup (db : List TaskRecord) (pend : List WorkflowTask)
    (wts : List WorkflowTask) (task : ClientTask) (h : queueNodup wts) :
    queueNodup (reenrollQueue db pend wts task) := by
  rcases reenrollQueue_append db pend wts task with heq | ⟨k, hnin, heq⟩ <;> rw [heq]
  · exact h
  · unfold queueNodup at h ⊢
    rw [List.pairwise_append]
    refine ⟨h, List.pairwise_singleton _ _, ?_⟩
    intro a ha b hb
    simp only [List.mem_singleton] at hb
    subst hb
    intro he
    exact hnin ⟨a, ha, by simpa [reenrollEntry] using he⟩

theorem reenrollQueueFold_nodup (db : List TaskRecord) (pend : List WorkflowTask)
    (ts : List ClientTask) (wts : List WorkflowTask) (h : queueNodup wts) :
    queueNodup (ts.foldl (reenrollQueue db pend) wts) := by
  induction ts generalizing wts with
  | nil => exact h
  | cons t ts ih =>
    rw [List.foldl_cons]
    exact ih _ (reenrollQueue_nodup db pend wts t h)

theorem recordToTask_stored (a b : String) (r : TaskRecord)
    (h : falsyOpt r.uniqueId = false) : recordToTask a r = recordToTask b r := by
  simp [recordToTask, h]

theorem reenrollQueue_skip (db : List TaskRecord) (pend : List WorkflowTask)
    (wts : List WorkflowTask) (task : ClientTask)
    (h : reenrollCond db pend task → ∃ w ∈ wts, w.uniqueId = task.uniqueId) :
    reenrollQueue db pend wts task = wts := by
  simp only [reenrollQueue]
  split
  · rename_i hcond
    split
    · rfl
    · rename_i td heq
      split
      · rfl
      · rename_i hany
        split
        · rename_i hk
          split
          · rfl
          · rename_i hdup
            exfalso
            have hc : reenrollCond db pend task := by
              refine ⟨hcond.1, hcond.2, td, heq, hk.1, hk.2.1, ?_⟩
              intro w hw he
              apply hdup
              refine Or.inr ?_
              simp only [List.any_eq_true]
              exact ⟨w, hw, by simp [beq_iff_eq, he]⟩
            obtain ⟨w, hw, he⟩ := h hc
            apply hany
            simp only [List.any_eq_true]
            exact ⟨w, hw, by simp [beq_iff_eq, he]⟩
        · rfl
  · rfl

theorem reenrollQueueFold_fixed (db : List TaskRecord) (pend : List WorkflowTask)
    (ts : List ClientTask) (wts : List WorkflowTask)
    (h : ∀ t ∈ ts, reenrollQueue db pend wts t = wts) :
    ts.foldl (reenrollQueue db pend) wts = wts := by
  induction ts with
  | nil => rfl
  | cons t ts ih =>
    rw [List.foldl_cons, h t (List.mem_cons_self t ts)]
    exact ih fun t' ht' => h t' (List.mem_cons_of_mem _ ht')

/-- Claim C7: reconcile(clientId) is idempotent with respect to the
Waiting Queue (a second run straight after a first adds no entries,
given that the freshly generated uniqueIds of the second run do not
collide with any stored uniqueId) and it keeps the queue's uniqueIds
pairwise distinct. -/
theorem c7_reconcile_idempotent (fresh1 fresh2 : Nat → String) (a1 a2 : Bool)
    (cid : String) (st : ServerState)
    (H2 : ∀ i, ∀ r ∈ st.db, r.uniqueId ≠ some (fresh2 i)) :
    (getClientTasksFn fresh2 a2 cid
        (getClientTasksFn fresh1 a1 cid st).1).1.waitingTasks
      = (getClientTasksFn fresh1 a1 cid st).1.waitingTasks ∧
    (queueNodup st.waitingTasks →
      queueNodup (getClientTasksFn fresh1 a1 cid st).1.waitingTasks) := by
  have hq1 : (getClientTasksFn fresh1 a1 cid st).1.waitingTasks
      = ((queryClientTasks cid st.db).enum.map
          fun p => recordToTask (fresh1 p.1) p.2).foldl
            (reenrollQueue st.db st.pendingTasks) st.waitingTasks :=
    getClientTasksFn_waiting fresh1 a1 cid st
  constructor
  · rw [getClientTasksFn_waiting fresh2 a2 cid,
      getClientTasksFn_db fresh1 a1 cid st, getClientTasksFn_pending fresh1 a1 cid st]
    apply reenrollQueueFold_fixed
    intro t ht
    apply reenrollQueue_skip
    intro hc
    obtain ⟨⟨i, r⟩, hp, rfl⟩ := List.mem_map.mp ht
    cases hfr : falsyOpt r.uniqueId with
    | true =>
      exfalso
      obtain ⟨_, _, td, hfind, _⟩ := hc
      have huid : (recordToTask (fresh2 i) r).uniqueId = fresh2 i := by
        simp [recordToTask, hfr]
      have hmem2 : td ∈ st.db := List.mem_of_find?_eq_some hfind
      have htd : td.uniqueId = some (fresh2 i) := by
        have := List.find?_some hfind
        rw [huid] at this
        simpa [beq_iff_eq] using this
      exact H2 i td hmem2 htd
    | false =>
      rw [recordToTask_stored (fresh2 i) (fresh1 i) r hfr] at hc ⊢
      have ht1 : recordToTask (fresh1 i) r
          ∈ (queryClientTasks cid st.db).enum.map
              fun p => recordToTask (fresh1 p.1) p.2 :=
        List.mem_map.mpr ⟨⟨i, r⟩, hp, rfl⟩
      have hm := reenrollQueueFold_cond_mem st.db st.pendingTasks _
        st.waitingTasks _ ht1 hc
      rw [hq1]
      exact hm
  · intro hnd
    rw [hq1]
    exact reenrollQueueFold_nodup st.db st.pendingTasks _ st.waitingTasks hnd

/-- Witness for C7 at a concrete input. -/
theorem c7_reconcile_idempotent_witness :
    (getClientTasksFn (fun _ => "G") true "c"
        (getClientTasksFn (fun _ => "F") true "c"
          ⟨[], [], 0, [waitRec, retryRec]⟩).1).1.waitingTasks
      = (getClientTasksFn (fun _ => "F") true "c"
          ⟨[], [], 0, [waitRec, retryRec]⟩).1.waitingTasks := by
  have h := c7_reconcile_idempotent (fun _ => "F") (fun _ => "G") true true "c"
    ⟨[], [], 0, [waitRec, retryRec]⟩
    (by
      intro i
      show ∀ r ∈ [waitRec, retryRec], r.uniqueId ≠ some "G"
      decide)
  exact h.1

/-! ## Claim C5 (amended): taskId/status invariant over traces -/

theorem taskIdStatusInv_set_uid (t : TaskRecord) (u : Option String)
    (h : taskIdStatusInv t) : taskIdStatusInv { t with uniqueId := u } := h

theorem saveTaskToDb_inv (f : String) (t : TaskRecord) (db : List TaskRecord)
    (ht : taskIdStatusInv { t with taskId := orNull t.taskId })
    (h : ∀ r ∈ db, taskIdStatusInv r) :
    ∀ r ∈ saveTaskToDb f t db, taskIdStatusInv r := by
  intro r hr
  unfold saveTaskToDb at hr
  split at hr
  · exact h r hr
  · rcases List.mem_append.mp hr with hm | hm
    · exact h r hm
    · simp only [List.mem_singleton] at hm
      subst hm
      exact ht

theorem updateByUniqueId_inv (uid tid s' : String)
    (hs : s' = "QUEUED" ∨ s' = "RUNNING") (db : List TaskRecord)
    (h : ∀ r ∈ db, taskIdStatusInv r) :
    ∀ r ∈ updateByUniqueId uid tid s' db, taskIdStatusInv r := by
  intro r hr
  simp only [updateByUniqueId, List.mem_map] at hr
  obtain ⟨x, hx, rfl⟩ := hr
  split
  · rcases hs with hs | hs <;> subst hs <;> simp [taskIdStatusInv]
  · exact h x hx

theorem markFailed_inv (ca cid nowv : String) (db : List TaskRecord)
    (h : ∀ r ∈ db, taskIdStatusInv r) :
    ∀ r ∈ markFailed ca cid nowv db, taskIdStatusInv r := by
  intro r hr
  simp only [markFailed, List.mem_map] at hr
  obtain ⟨x, hx, rfl⟩ := hr
  split
  · simp [taskIdStatusInv]
  · exact h x hx

theorem completeByTaskId_inv (tid nowv : String) (res : Option String)
    (db : List TaskRecord) (h : ∀ r ∈ db, taskIdStatusInv r) :
    ∀ r ∈ completeByTaskId tid nowv res db, taskIdStatusInv r := by
  intro r hr
  simp only [completeByTaskId, List.mem_map] at hr
  obtain ⟨x, hx, rfl⟩ := hr
  split
  · simp [taskIdStatusInv]
  · exact h x hx

theorem createWorkflow_inv (f now sock : String) (req : CreateReq)
    (up : UpOutcome) (st : ServerState) (hok : upStatusOk up)
    (h : ∀ r ∈ st.db, taskIdStatusInv r) :
    ∀ r ∈ (createWorkflow f now sock req up st).state.db, taskIdStatusInv r := by
  intro r hr
  unfold createWorkflow at hr
  split at hr
  · exact h r hr
  · cases up with
    | exn => exact h r hr
    | resp rr =>
      dsimp only at hr
      split at hr
      · exact saveTaskToDb_inv f _ st.db
          (by simp [taskIdStatusInv, mkRecord, orNull]) h r hr
      · split at hr
        · exact saveTaskToDb_inv f _ st.db
            (by simp [taskIdStatusInv, mkRecord, orNull]) h r hr
        · cases hd : rr.data with
          | some d =>
            rw [hd] at hr
            dsimp only at hr
            have hds : (d.taskStatus = "QUEUED" ∨ d.taskStatus = "RUNNING")
                ∧ d.taskId ≠ "" := by
              simp only [upStatusOk, hd] at hok
              exact hok
            refine saveTaskToDb_inv f _ st.db ?_ h r hr
            rcases hds with ⟨hds | hds, hdt⟩ <;>
              simp [taskIdStatusInv, mkRecord, orNull, hds, hdt]
          | none =>
            rw [hd] at hr
            dsimp only at hr
            exact saveTaskToDb_inv f _ st.db
              (by simp [taskIdStatusInv, mkRecord, orNull]) h r hr

theorem driver_inv (f now : String) (live : List String) (up : UpOutcome)
    (st : ServerState) (hok : upStatusOk up)
    (h : ∀ r ∈ st.db, taskIdStatusInv r) :
    ∀ r ∈ (trySubmitWaitingTask f now live up st).state.db, taskIdStatusInv r := by
  rcases st with ⟨pend, wts, c, db⟩
  cases wts with
  | nil => exact h
  | cons hd t =>
    cases up with
    | exn =>
      intro r hr
      simp only [trySubmitWaitingTask] at hr
      split at hr
      · exact h r hr
      · split at hr
        · exact h r hr
        · split at hr <;> exact markFailed_inv _ _ now db h r hr
    | resp rr =>
      intro r hr
      simp only [trySubmitWaitingTask] at hr
      split at hr
      · exact h r hr
      · split at hr
        · -- success branch: match on data, then clientId check
          split at hr
          · exact h r hr
          · split at hr
            · exact h r hr
            · rename_i d hd hcid
              have hds : d.taskStatus = "QUEUED" ∨ d.taskStatus = "RUNNING" := by
                simp only [upStatusOk, hd] at hok
                exact hok.1
              split at hr <;>
                exact updateByUniqueId_inv _ _ _ hds db h r hr
        · -- failure branch
          split at hr
          · exact h r hr
          · split at hr
            · exact h r hr
            · split at hr <;> exact markFailed_inv _ _ now db h r hr

theorem taskCompleted_inv (now : String) (tid : Option String)
    (res : Option String) (df dn : String) (ls : List String) (du : UpOutcome)
    (st : ServerState) (hok : upStatusOk du)
    (h : ∀ r ∈ st.db, taskIdStatusInv r) :
    ∀ r ∈ (taskCompleted now tid res df dn ls du st).db, taskIdStatusInv r := by
  simp only [taskCompleted]
  have h1 : ∀ r ∈ (if falsyOpt tid then st.db
      else completeByTaskId (tid.getD "") now res st.db), taskIdStatusInv r := by
    split
    · exact h
    · exact completeByTaskId_inv _ now res st.db h
  split
  · exact h1
  · exact driver_inv df dn ls du _ hok h1

theorem deleteTaskHandler_inv (req : DeleteReq) (st : ServerState)
    (h : ∀ r ∈ st.db, taskIdStatusInv r) :
    ∀ r ∈ (deleteTaskHandler req st).1.db, taskIdStatusInv r := by
  intro r hr
  simp only [deleteTaskHandler] at hr
  split at hr <;> try split at hr
  all_goals dsimp only at hr
  all_goals
    split_ifs at hr <;>
      first
        | exact h r hr
        | exact h r (List.mem_of_mem_filter hr)

theorem getClientTasksHandler_db (fresh : Nat → String) (a : Bool)
    (cid : Option String) (st : ServerState) :
    (getClientTasksHandler fresh a cid st).1.db = st.db := by
  simp only [getClientTasksHandler]
  split_ifs <;> rfl

theorem applyOp_inv (st : ServerState) (o : Op) (hok : opUpOk o)
    (h : ∀ r ∈ st.db, taskIdStatusInv r) :
    ∀ r ∈ (applyOp st o).db, taskIdStatusInv r := by
  cases o with
  | create f n s req u => exact createWorkflow_inv f n s req u st hok h
  | driver f n l u => exact driver_inv f n l u st hok h
  | completed n t r df dn ls du => exact taskCompleted_inv n t r df dn ls du st hok h
  | deleteOp req => exact deleteTaskHandler_inv req st h
  | reconcileOp f a c =>
    intro r hr
    rw [applyOp, getClientTasksHandler_db] at hr
    exact h r hr

theorem applyOps_inv (ops : List Op) (st : ServerState)
    (hok : ∀ o ∈ ops, opUpOk o) (h : ∀ r ∈ st.db, taskIdStatusInv r) :
    ∀ r ∈ (applyOps ops st).db, taskIdStatusInv r := by
  induction ops generalizing st with
  | nil => exact h
  | cons o rest ih =>
    exact ih (applyOp st o) (fun o' ho' => hok o' (List.mem_cons_of_mem _ ho'))
      (applyOp_inv st o (hok o (List.mem_cons_self o rest)) h)

/-- Claim C5 (amended): over any sequence of coordinator operations
whose upstream success payloads report QUEUED or RUNNING and a
non-empty taskId (the upstream contract), every persisted record
satisfies: taskId non-null whenever status is QUEUED or RUNNING, and
taskId null whenever status is WAITING or RETRY.  (SUCCESS is excluded
from the non-null statuses: the degenerate-success path persists
SUCCESS with a null taskId.) -/
theorem c5_taskid_status_invariant (ops : List Op)
    (hok : ∀ o ∈ ops, opUpOk o) :
    ∀ r ∈ (applyOps ops initState).db, taskIdStatusInv r :=
  applyOps_inv ops initState hok (by intro r hr; cases hr)

/-- Witness for C5 at a concrete input. -/
theorem c5_taskid_status_invariant_witness :
    taskIdStatusInv ⟨some "T1", "c", "QUEUED", none, "t0", none, none,
      some sampleNodes, none, some "u1"⟩ := by
  have h := c5_taskid_status_invariant
    [Op.create "u1" "t1" "s1" sampleReq (UpOutcome.resp okResp)]
    (by
      intro o ho
      simp only [List.mem_singleton] at ho
      subst ho
      show upStatusOk (UpOutcome.resp okResp)
      simp [upStatusOk, okResp, okData])
  apply h
  decide

end RunninghubAutoRun
